import Mathlib

/-!
Shallow embedding of the response-translation layer of `handlerx/utils.go`
(package `handlerx` of wyaow/ld-go-gqlrest): the functions `writeJSON`,
`writeJSONError` and `dbgPrintf`, together with the fragments of Go's
`encoding/json` and `strconv` and of the gqlgen/gqlparser data types that
those functions exercise.

Modelling conventions:
- a `json.RawMessage` byte slice is modelled by `Raw` (nil slice, the
  serialized form of a JSON value, or bytes that are not valid JSON);
- Go maps are modelled by association lists with first-match lookup;
  `encoding/json` marshals map keys in sorted order, which the model
  reproduces; duplicate keys do not arise (decoding builds the list with
  replace-on-collision, mirroring a Go map);
- the output sink (`io.Writer`) is modelled by a predicate saying which
  write contents fail; a failed write is modelled as writing nothing;
- a Go `panic` that escapes `writeJSON` is the `Outcome.panicked`
  constructor; the recovered path is ordinary control flow;
- the process-wide `_printer` global is passed explicitly as an
  `Option Printer` argument;
- Go `int` is modelled as a 64-bit quantity (`Int` with the
  `strconv.Atoi` saturation at `2^63 - 1` made explicit).
-/

namespace Handlerx

/-- JSON values: the abstract form of the bytes held in a `json.RawMessage`.
Numbers are restricted to integers, which covers every value the
translation layer constructs or inspects. -/
inductive Json where
  | null
  | bool (b : Bool)
  | num (n : Int)
  | str (s : String)
  | arr (elems : List Json)
  | obj (fields : List (String × Json))

/-- A `json.RawMessage` byte slice: `empty` is a nil (zero-length) slice,
`valid j` holds the serialized form of the JSON value `j`, and
`invalid s` holds non-JSON bytes `s`. -/
inductive Raw where
  | empty
  | valid (j : Json)
  | invalid (s : String)

/-- Lowercase hexadecimal digit, as used by `encoding/json` escapes. -/
def hexDigit (n : Nat) : Char :=
  if n < 10 then Char.ofNat (48 + n) else Char.ofNat (97 + (n - 10))

/-- Escape one character the way Go's `encoding/json` default encoder does
(HTML escaping on): quote, backslash, the control characters, `<`, `>`,
`&`, and U+2028/U+2029 are escaped; everything else passes through. -/
def escapeChar (c : Char) : String :=
  if c = '"' then "\\\""
  else if c = '\\' then "\\\\"
  else if c = '\n' then "\\n"
  else if c = '\r' then "\\r"
  else if c = '\t' then "\\t"
  else if c.toNat < 32 then
    "\\u00" ++ String.singleton (hexDigit (c.toNat / 16)) ++ String.singleton (hexDigit (c.toNat % 16))
  else if c = '<' then "\\u003c"
  else if c = '>' then "\\u003e"
  else if c = '&' then "\\u0026"
  else if c.toNat = 8232 then "\\u2028"
  else if c.toNat = 8233 then "\\u2029"
  else String.singleton c

/-- Serialize a string as a JSON string literal (Go `encoding/json` style). -/
def quoteStr (s : String) : String :=
  "\"" ++ String.join (s.data.map escapeChar) ++ "\""

mutual

/-- Serialize a JSON value the way Go's `encoding/json` renders it
(compact form, object fields in the order held by the model). -/
def serializeJson : Json → String
  | .null => "null"
  | .bool true => "true"
  | .bool false => "false"
  | .num n => toString n
  | .str s => quoteStr s
  | .arr elems => "[" ++ serializeArr elems ++ "]"
  | .obj fields => "\x7b" ++ serializeObj fields ++ "\x7d"

/-- Comma-separated serialization of array elements. -/
def serializeArr : List Json → String
  | [] => ""
  | [x] => serializeJson x
  | x :: xs => serializeJson x ++ "," ++ serializeArr xs

/-- Comma-separated serialization of object fields. -/
def serializeObj : List (String × Json) → String
  | [] => ""
  | [(k, v)] => quoteStr k ++ ":" ++ serializeJson v
  | (k, v) :: fs => quoteStr k ++ ":" ++ serializeJson v ++ "," ++ serializeObj fs

end

/-- Length test for a `json.RawMessage`: models `len(bytes) > 0`.
The serialized form of a JSON value is never zero-length, so `valid`
is always non-empty. -/
def Raw.isNonEmpty : Raw → Bool
  | .empty => false
  | .valid _ => true
  | .invalid s => !s.isEmpty

/-- Go's `json: error calling MarshalJSON` failure text, used when a
`json.RawMessage` holds bytes that are not valid JSON. -/
def rawMarshalErrMsg : String :=
  "json: error calling MarshalJSON for type json.RawMessage"

/-- `json.Marshal` of the bytes held in a `json.RawMessage` field: a nil
slice renders as `null`, valid JSON renders verbatim, anything else makes
the surrounding marshal fail. -/
def marshalRaw : Raw → Except String String
  | .empty => .ok "null"
  | .valid j => .ok (serializeJson j)
  | .invalid _ => .error rawMarshalErrMsg

/-- Insert a key into a Go map modelled as an association list: replace
the value when the key is present, append otherwise. -/
def goMapInsert (m : List (String × Json)) (k : String) (v : Json) : List (String × Json) :=
  match m with
  | [] => [(k, v)]
  | (k0, v0) :: rest =>
    if k0 = k then (k0, v) :: rest else (k0, v0) :: goMapInsert rest k v

/-- Build the Go map produced by decoding a JSON object's field list
(later duplicate keys overwrite earlier ones). -/
def buildGoMap (fields : List (String × Json)) : List (String × Json) :=
  fields.foldl (fun m kv => goMapInsert m kv.1 kv.2) []

/-- `json.Unmarshal(bytes, &m)` for `m : map[string]json.RawMessage`:
succeeds exactly on a JSON object, failing on non-object JSON, on bytes
that are not JSON, and on zero-length input. The association list stands
for the map; Go iterates maps in unspecified order, which the model fixes
as list order (exact for the single-key maps the upstream contract
guarantees). -/
def unmarshalMap : Raw → Except String (List (String × Json))
  | .valid (.obj fields) => .ok (buildGoMap fields)
  | .valid _ => .error "json: cannot unmarshal value into Go value of type map[string]json.RawMessage"
  | .invalid _ => .error "invalid character in JSON input"
  | .empty => .error "unexpected end of JSON input"

/-- A value stored in an error's `Extensions` map (`interface\x7b\x7d` in Go):
either a string or a non-string value. Integers and booleans stand for the
non-string cases the translator can meet; every non-string constructor
behaves identically under the `n.(string)` type assertion. -/
inductive ExtVal where
  | str (s : String)
  | int (n : Int)
  | boolv (b : Bool)

/-- Whether an extensions value is a string (`n.(string)` succeeds). -/
def ExtVal.isStr : ExtVal → Bool
  | .str _ => true
  | _ => false

/-- The Go two-valued type assertion `s, _ = n.(string)` with the boolean
discarded: the string itself when `n` holds a string, the zero value `""`
otherwise. -/
def extValAsString : ExtVal → String
  | .str s => s
  | _ => ""

/-- Go map lookup `m[k]` on an association list (first match). -/
def lookupExt : List (String × ExtVal) → String → Option ExtVal
  | [], _ => none
  | (k0, v0) :: rest, k => if k0 = k then some v0 else lookupExt rest k

/-- One segment of a gqlparser `ast.Path`: a field name or a list index. -/
inductive PathSeg where
  | name (s : String)
  | index (i : Int)

/-- gqlparser's `ast.Path.String()`: indices render as `[i]`, names render
bare in first position and with a leading dot afterwards. -/
def pathString (p : List PathSeg) : String :=
  String.join (p.mapIdx fun i seg =>
    match seg with
    | PathSeg.index n => "[" ++ toString n ++ "]"
    | PathSeg.name s => if i = 0 then s else "." ++ s)

/-- gqlparser's `gqlerror.Error` restricted to the fields the translator
reads and `writeJSONError` writes (`Message`, `Path`, `Extensions`); the
`Err`, `Locations` and `Rule` fields are never set or read on this path
and are omitted (all three marshal to nothing when unset). -/
structure GqlError where
  Message : String
  Path : List PathSeg
  Extensions : List (String × ExtVal)

/-- gqlgen's `graphql.Response` restricted to the fields this repository
sets (`Data`, `Errors`); `Label`, `Path`, `HasNext` and `Extensions` are
never set on this path and marshal to nothing when unset. -/
structure Response where
  Data : Raw
  Errors : List GqlError

/-- `RESTResponse` from `handlerx/utils.go`: the REST envelope
`\x7b"code": ..., "message,omitempty": ..., "data": ...\x7d`. -/
structure RESTResponse where
  Code : Int
  Message : String
  Data : Raw

/-- `http.StatusUnprocessableEntity`. -/
def StatusUnprocessableEntity : Nat := 422

/-- `http.StatusInternalServerError`. -/
def StatusInternalServerError : Nat := 500

/-- gqlgen `errcode.ValidationFailed`. -/
def ValidationFailed : String := "GRAPHQL_VALIDATION_FAILED"

/-- gqlgen `errcode.ParseFailed`. -/
def ParseFailed : String := "GRAPHQL_PARSE_FAILED"

/-- `numRegexp.MatchString` for `numRegexp = regexp.MustCompile` of
the anchored pattern matching one or more ASCII decimal digits
(RE2 `\d` is exactly `[0-9]`; `$` matches only at end of text). -/
def numRegexpMatch (s : String) : Bool :=
  !s.data.isEmpty && s.data.all fun c => decide ('0' ≤ c) && decide (c ≤ '9')

/-- Numeric value of a decimal digit string, most significant digit first. -/
def digitsVal (cs : List Char) : Nat :=
  cs.foldl (fun n c => n * 10 + (c.toNat - 48)) 0

/-- `strconv.Atoi` on a string of decimal digits, on a 64-bit platform:
the exact value while it fits in a signed 64-bit int, and the saturated
value `2^63 - 1` (with a range error the caller discards) beyond that. -/
def atoiDigits (s : String) : Int :=
  if digitsVal s.data < 2 ^ 63 then (digitsVal s.data : Int) else (2 ^ 63 - 1 : Int)

/-- Resolution of the working code string to the envelope's numeric code:
digit strings parse via `strconv.Atoi`, the two symbolic gqlgen kinds map
to 422, and every other string maps to 500. -/
def resolveCode (code : String) : Int :=
  if numRegexpMatch code then atoiDigits code
  else if code = ValidationFailed ∨ code = ParseFailed then (StatusUnprocessableEntity : Int)
  else (StatusInternalServerError : Int)

/-- The per-error message entry accumulated by `writeJSON`'s error loop:
the error's message, with the rendering of its path appended after one
space when the path is non-empty. -/
def entryOf (e : GqlError) : String :=
  if e.Path.isEmpty then e.Message else e.Message ++ " " ++ pathString e.Path

/-- One iteration of `writeJSON`'s error loop on the working pair
`(code, msgs)`: a `code` extensions entry overwrites the working code
string (through the discarded-boolean string assertion), and the entry
for the error is appended to the message list. -/
def errStep (acc : String × List String) (e : GqlError) : String × List String :=
  (match lookupExt e.Extensions "code" with
    | some n => extValAsString n
    | none => acc.1,
   acc.2 ++ [entryOf e])

/-- The working code string after the error loop runs from initial
value `c`: each error carrying a `code` extensions entry overwrites it. -/
def codeAfter (c : String) : List GqlError → String
  | [] => c
  | e :: es =>
    codeAfter
      (match lookupExt e.Extensions "code" with
        | some n => extValAsString n
        | none => c) es

/-- The `code` extensions value of the last error (in iteration order)
that carries one, if any. -/
def lastCodeExt : List GqlError → Option ExtVal
  | [] => none
  | e :: es =>
    match lastCodeExt es with
    | some v => some v
    | none => lookupExt e.Extensions "code"

/-- The `if len(r.Errors) > 0` block of `writeJSON`: run the error loop
from the working pair `(strconv.Itoa(422), [])`, resolve the final code
string, and set the envelope's code and `"; "`-joined message. -/
def applyErrors (errs : List GqlError) (resp : RESTResponse) : RESTResponse :=
  if errs.isEmpty then resp
  else
    ⟨resolveCode (List.foldl errStep (toString StatusUnprocessableEntity, []) errs).1,
     String.intercalate "; " (List.foldl errStep (toString StatusUnprocessableEntity, []) errs).2,
     resp.Data⟩

/-- The `if len(r.Data) > 0` block of `writeJSON`: unmarshal the data
payload into a map and replace the envelope's data with the first value
encountered (the loop breaks after one iteration; GraphQL guarantees at
most one top-level member). An unmarshal failure is a panic, modelled as
the error of the `Except`. -/
def extractData (d : Raw) (resp : RESTResponse) : Except String RESTResponse :=
  if d.isNonEmpty then
    match unmarshalMap d with
    | .error e => .error e
    | .ok m =>
      match m with
      | [] => .ok resp
      | (_, v) :: _ => .ok ⟨resp.Code, resp.Message, Raw.valid v⟩
  else .ok resp

/-- The envelope-building half of `writeJSON`'s REST branch: start from
`\x7bCode: 0, Data: r.Data\x7d`, run the data-extraction block, then the
error block. The `Except` error is a panic escaping to the recover
boundary. -/
def buildRESTResponse (r : Response) : Except String RESTResponse :=
  match extractData r.Data ⟨0, "", r.Data⟩ with
  | .error e => .error e
  | .ok resp => .ok (applyErrors r.Errors resp)

/-- `json.Marshal` of a `RESTResponse`: struct fields in declaration
order, `message` omitted when empty (its tag carries `omitempty`),
`data` rendered from the raw bytes. -/
def marshalREST (resp : RESTResponse) : Except String String :=
  match marshalRaw resp.Data with
  | .error e => .error e
  | .ok dataBytes =>
    .ok ("\x7b\"code\":" ++ toString resp.Code
      ++ (if resp.Message = "" then "" else ",\"message\":" ++ quoteStr resp.Message)
      ++ ",\"data\":" ++ dataBytes ++ "\x7d")

/-- Insertion into a key-sorted association list, used because
`encoding/json` marshals Go map keys in sorted order. -/
def insertSorted (kv : String × ExtVal) : List (String × ExtVal) → List (String × ExtVal)
  | [] => [kv]
  | x :: xs => if kv.1 < x.1 then kv :: x :: xs else x :: insertSorted kv xs

/-- Marshal an extensions value. -/
def marshalExtVal : ExtVal → String
  | .str s => quoteStr s
  | .int n => toString n
  | .boolv true => "true"
  | .boolv false => "false"

/-- Marshal an extensions map: keys sorted, as `encoding/json` does. -/
def marshalExtensions (exts : List (String × ExtVal)) : String :=
  "\x7b" ++ String.intercalate ","
    ((exts.foldr insertSorted []).map fun kv => quoteStr kv.1 ++ ":" ++ marshalExtVal kv.2)
    ++ "\x7d"

/-- gqlparser's `ast.Path.MarshalJSON`: a JSON array of names and indices. -/
def marshalPathJson (p : List PathSeg) : String :=
  "[" ++ String.intercalate "," (p.map fun seg =>
    match seg with
    | PathSeg.name s => quoteStr s
    | PathSeg.index i => toString i) ++ "]"

/-- Marshal one `gqlerror.Error`: `message`, then `path` and `extensions`
when non-empty (their tags carry `omitempty`). -/
def marshalError (e : GqlError) : String :=
  "\x7b\"message\":" ++ quoteStr e.Message
    ++ (if e.Path.isEmpty then "" else ",\"path\":" ++ marshalPathJson e.Path)
    ++ (if e.Extensions.isEmpty then "" else ",\"extensions\":" ++ marshalExtensions e.Extensions)
    ++ "\x7d"

/-- `json.Marshal` of a `graphql.Response` as used in GraphQL mode:
`errors` (omitted when empty) then `data`; fails when the raw data bytes
are not valid JSON. -/
def marshalResponse (r : Response) : Except String String :=
  match marshalRaw r.Data with
  | .error e => .error e
  | .ok dataBytes =>
    .ok ("\x7b"
      ++ (if r.Errors.isEmpty then ""
          else "\"errors\":[" ++ String.intercalate "," (r.Errors.map marshalError) ++ "],")
      ++ "\"data\":" ++ dataBytes ++ "\x7d")

/-- The output sink: `fails s` says whether writing content `s` returns
an error. A failing write is modelled as writing nothing. -/
structure Writer where
  fails : String → Bool

/-- A sink on which every write succeeds. -/
def stdWriter : Writer := ⟨fun _ => false⟩

/-- The registered diagnostic sink (the `Printer` interface); its identity
is irrelevant to the translator, which only checks for its presence. -/
structure Printer where
  id : Nat

/-- `dbgPrintf`: when a printer is registered (the interface value is
non-nil) the formatted text goes to it; otherwise the call is a no-op.
The returned list is the diagnostic output produced. -/
def dbgPrintf (p : Option Printer) (msg : String) : List String :=
  match p with
  | some _ => [msg]
  | none => []

/-- The fallback envelope built inside the recover block. -/
def fallbackResponse : RESTResponse :=
  ⟨(StatusInternalServerError : Int), "unexpected error: unmarshal or write response error", Raw.empty⟩

/-- The bytes of the fallback envelope (`json.Marshal` with the error
discarded; it cannot fail since the data field is nil). -/
def fallbackContent : String :=
  match marshalREST fallbackResponse with
  | .ok s => s
  | .error _ => ""

/-- The panic payload used for a failed sink write (`panic(err)` with the
`io.Writer` error; the payload's text is sink-specific and modelled as a
fixed token). -/
def writeErrMsg : String := "write error"

/-- Envelope building followed by `json.Marshal`: everything of the REST
branch that can panic before the final write. -/
def buildAndMarshal (r : Response) : Except String String :=
  match buildRESTResponse r with
  | .error e => .error e
  | .ok resp => marshalREST resp

/-- The observable outcome of a `writeJSON` call: either a normal return
or a panic escaping to the caller. `written` lists the contents accepted
by the output sink, in order; `dbg` lists the diagnostic output. -/
inductive Outcome where
  | ok (written : List String) (dbg : List String)
  | panicked (written : List String) (dbg : List String) (err : String)

/-- The deferred recover block of `writeJSON`: log the panic through
`dbgPrintf` (the Go code prints the goroutine stack; the model carries
the panic message), marshal the fallback envelope, and write it; a
failure of that very write re-panics and escapes. -/
def restRecover (w : Writer) (e : String) (printer : Option Printer) : Outcome :=
  let dbg := dbgPrintf printer ("restful response recover from panic:" ++ e)
  if w.fails fallbackContent then Outcome.panicked [] dbg writeErrMsg
  else Outcome.ok [fallbackContent] dbg

/-- `writeJSON(w, r, isRESTful)`. GraphQL mode marshals and writes the
response verbatim, panicking (uncontained) on a marshal or write failure.
REST mode builds the envelope, marshals and writes it, with every failure
routed to the recover block. -/
def writeJSON (w : Writer) (r : Response) (isRESTful : Bool) (printer : Option Printer) : Outcome :=
  if !isRESTful then
    match marshalResponse r with
    | .error e => Outcome.panicked [] [] e
    | .ok b => if w.fails b then Outcome.panicked [] [] writeErrMsg else Outcome.ok [b] []
  else
    match buildAndMarshal r with
    | .error e => restRecover w e printer
    | .ok b =>
      if w.fails b then restRecover w writeErrMsg printer
      else Outcome.ok [b] []

/-- `writeJSONError(w, code, isRESTful, msg)`: build a single
`gqlerror.Error` whose extensions carry the entry `"code" ↦ code` (a Go
`int`, hence a non-string extensions value) and delegate to `writeJSON`
with a response holding only that error. -/
def writeJSONError (w : Writer) (code : Int) (isRESTful : Bool) (msg : String)
    (printer : Option Printer) : Outcome :=
  writeJSON w ⟨Raw.empty, [⟨msg, [], [("code", ExtVal.int code)]⟩]⟩ isRESTful printer

/-!
General lemmas about the error loop and the envelope builder.
-/

/-- The error block never touches the envelope's data. -/
theorem applyErrors_data (errs : List GqlError) (resp : RESTResponse) :
    (applyErrors errs resp).Data = resp.Data := by
  unfold applyErrors
  split <;> rfl

/-- The first component of the error-loop fold is the working code string
tracked by `codeAfter`. -/
theorem foldl_errStep_fst (errs : List GqlError) (c : String) (ms : List String) :
    (List.foldl errStep (c, ms) errs).1 = codeAfter c errs := by
  induction errs generalizing c ms with
  | nil => rfl
  | cons e es ih =>
    rw [List.foldl_cons]
    exact ih _ _

/-- The second component of the error-loop fold appends one entry per
error to the accumulator. -/
theorem foldl_errStep_snd (errs : List GqlError) (c : String) (ms : List String) :
    (List.foldl errStep (c, ms) errs).2 = ms ++ errs.map entryOf := by
  induction errs generalizing c ms with
  | nil => simp
  | cons e es ih =>
    rw [List.foldl_cons]
    rw [ih]
    simp [errStep]

/-- The working code string after the loop is the value of the last
error carrying a `code` extensions entry (run through the string
assertion), or the initial value when no error carries one. -/
theorem codeAfter_lastCodeExt (errs : List GqlError) (c : String) :
    codeAfter c errs =
      match lastCodeExt errs with
      | some v => extValAsString v
      | none => c := by
  induction errs generalizing c with
  | nil => rfl
  | cons e es ih =>
    show codeAfter _ es = _
    rw [ih]
    show _ = (match (match lastCodeExt es with
      | some v => some v
      | none => lookupExt e.Extensions "code") with
      | some v => extValAsString v
      | none => c)
    cases lastCodeExt es with
    | some v => rfl
    | none => cases lookupExt e.Extensions "code" <;> rfl

/-- Unfolded form of the error block on a non-empty error list. -/
theorem applyErrors_eq (errs : List GqlError) (resp : RESTResponse) (h : errs ≠ []) :
    applyErrors errs resp =
      ⟨resolveCode (codeAfter (toString StatusUnprocessableEntity) errs),
       String.intercalate "; " (errs.map entryOf), resp.Data⟩ := by
  match errs, h with
  | e :: es, _ =>
    unfold applyErrors
    rw [foldl_errStep_fst, foldl_errStep_snd]
    simp

/-- Decomposition of a successful envelope build into the data step and
the error step. -/
theorem build_ok (r : Response) (resp : RESTResponse)
    (h : buildRESTResponse r = Except.ok resp) :
    ∃ r1, extractData r.Data ⟨0, "", r.Data⟩ = Except.ok r1 ∧
      resp = applyErrors r.Errors r1 := by
  unfold buildRESTResponse at h
  cases hx : extractData r.Data ⟨0, "", r.Data⟩ with
  | error e => rw [hx] at h; cases h
  | ok r1 =>
    rw [hx] at h
    cases h
    exact ⟨r1, rfl, rfl⟩

/-!
Claim theorems.
-/

/-- C1: evaluation of `writeJSONError(w, 404, true, "not found")` (the
spec's `EmitError(404, true, "not found")`). The extensions entry `code`
holds the Go int `404`, the `n.(string)` assertion inside `writeJSON`
fails and leaves the working code string empty, and the empty string
resolves to 500 — so the envelope written is
`\x7b"code":500,"message":"not found","data":null\x7d`, not the
`\x7b"code":404,...\x7d` the spec states. -/
theorem c1_emitError404_writes_code500 :
    writeJSONError stdWriter 404 true "not found" none =
      Outcome.ok ["\x7b\"code\":500,\"message\":\"not found\",\"data\":null\x7d"] [] := rfl

/-- C2 counterexample: the data payload `[1]` is valid JSON that fails to
deserialize into the expected mapping shape, yet GraphQL-mode translation
does not propagate any fault — it serializes the result verbatim and
returns normally. -/
theorem c2_counterexample :
    unmarshalMap (Raw.valid (Json.arr [Json.num 1])) =
      Except.error "json: cannot unmarshal value into Go value of type map[string]json.RawMessage" ∧
    writeJSON stdWriter ⟨Raw.valid (Json.arr [Json.num 1]), []⟩ false none =
      Outcome.ok ["\x7b\"data\":[1]\x7d"] [] := ⟨rfl, rfl⟩

/-- C2 amended: for every execution result whose non-empty data payload
fails to deserialize into the expected mapping shape, REST-mode
translation emits exactly the fixed fallback envelope
`\x7bcode: 500, message: "unexpected error: unmarshal or write response
error"\x7d` (provided the sink accepts that write), whereas GraphQL-mode
translation propagates a fault exactly when serializing the raw payload
itself fails (payload not valid JSON); a well-formed non-mapping payload
passes through GraphQL mode without fault. -/
theorem c2_amended (r : Response) (w : Writer) (printer : Option Printer) (e : String)
    (hne : r.Data.isNonEmpty = true)
    (hfail : unmarshalMap r.Data = Except.error e)
    (hw : w.fails fallbackContent = false) :
    writeJSON w r true printer =
      Outcome.ok [fallbackContent]
        (dbgPrintf printer ("restful response recover from panic:" ++ e)) ∧
    fallbackContent =
      "\x7b\"code\":500,\"message\":\"unexpected error: unmarshal or write response error\",\"data\":null\x7d" ∧
    ∀ em, marshalRaw r.Data = Except.error em →
      writeJSON w r false printer = Outcome.panicked [] [] em := by
  refine ⟨?_, rfl, ?_⟩
  · simp [writeJSON, buildAndMarshal, buildRESTResponse, extractData, restRecover, hne, hfail, hw]
  · intro em hem
    simp [writeJSON, marshalResponse, hem]

/-- C2 witness: `c2_amended` instantiated at a payload of invalid JSON
bytes with an all-accepting sink. -/
theorem c2_amended_witness :
    writeJSON stdWriter ⟨Raw.invalid "oops", []⟩ true none = Outcome.ok [fallbackContent] [] ∧
    writeJSON stdWriter ⟨Raw.invalid "oops", []⟩ false none =
      Outcome.panicked [] [] rawMarshalErrMsg := by
  constructor
  · exact (c2_amended ⟨Raw.invalid "oops", []⟩ stdWriter none
      "invalid character in JSON input" rfl rfl rfl).1
  · exact (c2_amended ⟨Raw.invalid "oops", []⟩ stdWriter none
      "invalid character in JSON input" rfl rfl rfl).2.2 rawMarshalErrMsg rfl

/-- C3 counterexample: a single error whose `code` extensions entry holds
the numeric (non-string) value 404. That error is the last one carrying a
`code` extension, yet the final envelope code is 500, not 404: the claim's
universal statement fails on non-string code values. -/
theorem c3_counterexample :
    buildRESTResponse ⟨Raw.empty, [⟨"boom", [], [("code", ExtVal.int 404)]⟩]⟩ =
      Except.ok ⟨500, "boom", Raw.empty⟩ ∧
    lookupExt [("code", ExtVal.int 404)] "code" = some (ExtVal.int 404) ∧
    (500 : Int) ≠ 404 := ⟨rfl, rfl, by decide⟩

/-- C3 amended: for every non-empty error list in REST mode, if the last
error (in iteration order) carrying a `code` extensions entry carries the
string form of a decimal number N (N within the signed 64-bit range),
the final envelope code is exactly N — each coded error unconditionally
overwrites the working code string; if no error carries a `code`
extensions entry, the final code is 422. (A non-string `code` value
overwrites the working string with `""` and resolves to 500, per C10.) -/
theorem c3_amended (r : Response) (resp : RESTResponse)
    (hok : buildRESTResponse r = Except.ok resp)
    (hne : r.Errors ≠ []) :
    (∀ ds, lastCodeExt r.Errors = some (ExtVal.str ds) →
      numRegexpMatch ds = true → digitsVal ds.data < 2 ^ 63 →
      resp.Code = (digitsVal ds.data : Int)) ∧
    (lastCodeExt r.Errors = none → resp.Code = 422) := by
  obtain ⟨r1, hx, hresp⟩ := build_ok r resp hok
  subst hresp
  rw [applyErrors_eq r.Errors r1 hne]
  constructor
  · intro ds hlast hnum hlt
    show resolveCode (codeAfter (toString StatusUnprocessableEntity) r.Errors) = _
    rw [codeAfter_lastCodeExt, hlast]
    show resolveCode ds = _
    simp [resolveCode, atoiDigits, hnum, hlt]
    omega
  · intro hnone
    show resolveCode (codeAfter (toString StatusUnprocessableEntity) r.Errors) = 422
    rw [codeAfter_lastCodeExt, hnone]
    rfl

/-- C3 witness: `c3_amended` instantiated at a list whose last coded
error carries the string "404", and at a list with no coded error. -/
theorem c3_amended_witness :
    (⟨(404 : Int), "boom", Raw.empty⟩ : RESTResponse).Code = (digitsVal "404".data : Int) ∧
    (⟨(422 : Int), "boom", Raw.empty⟩ : RESTResponse).Code = 422 :=
  ⟨(c3_amended ⟨Raw.empty, [⟨"boom", [], [("code", ExtVal.str "404")]⟩]⟩
      ⟨404, "boom", Raw.empty⟩ rfl (by simp)).1 "404" rfl rfl (by decide),
   (c3_amended ⟨Raw.empty, [⟨"boom", [], []⟩]⟩
      ⟨422, "boom", Raw.empty⟩ rfl (by simp)).2 rfl⟩

/-- C4 counterexample: the all-digit string "9223372036854775808" (2^63)
resolves to 9223372036854775807, not to its own value: `strconv.Atoi`
saturates at the signed 64-bit maximum and `writeJSON` discards the range
error, so "the numeric code is exactly N" fails for out-of-range N. -/
theorem c4_counterexample :
    numRegexpMatch "9223372036854775808" = true ∧
    resolveCode "9223372036854775808" = 9223372036854775807 ∧
    (9223372036854775807 : Int) ≠ 9223372036854775808 := ⟨rfl, rfl, by decide⟩

/-- C4 amended: the working code string resolves as follows: a string of
decimal digits "N" resolves to exactly N when N is at most 2^63 - 1 and
to the saturated value 2^63 - 1 beyond that (the `strconv.Atoi` range
error being discarded); otherwise `"GRAPHQL_VALIDATION_FAILED"` and
`"GRAPHQL_PARSE_FAILED"` resolve to 422; every other non-numeric string
resolves to 500. -/
theorem c4_amended (s : String) :
    (numRegexpMatch s = true → digitsVal s.data < 2 ^ 63 →
      resolveCode s = (digitsVal s.data : Int)) ∧
    (numRegexpMatch s = true → 2 ^ 63 ≤ digitsVal s.data →
      resolveCode s = 2 ^ 63 - 1) ∧
    (numRegexpMatch s = false → s = ValidationFailed ∨ s = ParseFailed →
      resolveCode s = 422) ∧
    (numRegexpMatch s = false → s ≠ ValidationFailed → s ≠ ParseFailed →
      resolveCode s = 500) := by
  refine ⟨?_, ?_, ?_, ?_⟩
  · intro h1 h2
    simp [resolveCode, atoiDigits, h1, h2]
    omega
  · intro h1 h2
    simp [resolveCode, atoiDigits, h1, Nat.not_lt.mpr h2]
    omega
  · intro h1 h2
    simp [resolveCode, h1, h2, StatusUnprocessableEntity]
  · intro h1 h2 h3
    simp [resolveCode, h1, h2, h3, StatusInternalServerError]

/-- C4 witness: `c4_amended` instantiated at a numeric string, an
out-of-range numeric string, a symbolic kind, and an arbitrary
non-numeric string. -/
theorem c4_amended_witness :
    resolveCode "404" = (digitsVal "404".data : Int) ∧
    resolveCode "18446744073709551616" = 2 ^ 63 - 1 ∧
    resolveCode "GRAPHQL_PARSE_FAILED" = 422 ∧
    resolveCode "bogus" = 500 :=
  ⟨(c4_amended "404").1 rfl (by decide),
   (c4_amended "18446744073709551616").2.1 rfl (by decide),
   (c4_amended "GRAPHQL_PARSE_FAILED").2.2.1 rfl (Or.inr rfl),
   (c4_amended "bogus").2.2.2 rfl (by decide) (by decide)⟩

/-- C5: for every execution result whose non-empty data payload
deserializes into a mapping with exactly one top-level key, the REST
envelope's data is that key's inner value, whatever the key's name and
whatever the error list. -/
theorem c5_single_key_data (d : Raw) (fs : List (String × Json)) (k : String) (v : Json)
    (errs : List GqlError)
    (hd : d = Raw.valid (Json.obj fs))
    (hm : buildGoMap fs = [(k, v)]) :
    ∃ resp, buildRESTResponse ⟨d, errs⟩ = Except.ok resp ∧ resp.Data = Raw.valid v := by
  subst hd
  refine ⟨applyErrors errs ⟨0, "", Raw.valid v⟩, ?_, ?_⟩
  · simp [buildRESTResponse, extractData, unmarshalMap, Raw.isNonEmpty, hm]
  · rw [applyErrors_data]

/-- C5 witness: `c5_single_key_data` at the payload
`\x7b"user": 7\x7d` with an empty error list. -/
theorem c5_witness :
    ∃ resp, buildRESTResponse ⟨Raw.valid (Json.obj [("user", Json.num 7)]), []⟩ =
      Except.ok resp ∧ resp.Data = Raw.valid (Json.num 7) :=
  c5_single_key_data (Raw.valid (Json.obj [("user", Json.num 7)]))
    [("user", Json.num 7)] "user" (Json.num 7) [] rfl rfl

/-- C6: for every non-empty error list in REST mode, the envelope message
is the "; "-joined concatenation of one entry per error in iteration
order, each entry being the error's message with the rendering of its
path appended after one space when the path is non-empty, and the message
alone when the path is empty. -/
theorem c6_message_join (r : Response) (resp : RESTResponse)
    (hok : buildRESTResponse r = Except.ok resp)
    (hne : r.Errors ≠ []) :
    resp.Message = String.intercalate "; " (r.Errors.map fun e =>
      if e.Path.isEmpty then e.Message else e.Message ++ " " ++ pathString e.Path) := by
  obtain ⟨r1, hx, hresp⟩ := build_ok r resp hok
  subst hresp
  rw [applyErrors_eq r.Errors r1 hne]
  rfl

/-- C6 witness: `c6_message_join` at a two-error list, the first error
carrying the path `x[0].y` and the second no path. -/
theorem c6_witness :
    (⟨(404 : Int), "a x[0].y; b", Raw.empty⟩ : RESTResponse).Message =
      String.intercalate "; "
        (([⟨"a", [PathSeg.name "x", PathSeg.index 0, PathSeg.name "y"], []⟩,
           ⟨"b", [], [("code", ExtVal.str "404")]⟩] : List GqlError).map (fun e =>
            if e.Path.isEmpty then e.Message else e.Message ++ " " ++ pathString e.Path)) :=
  c6_message_join
    ⟨Raw.empty, [⟨"a", [PathSeg.name "x", PathSeg.index 0, PathSeg.name "y"], []⟩,
                 ⟨"b", [], [("code", ExtVal.str "404")]⟩]⟩
    ⟨404, "a x[0].y; b", Raw.empty⟩ rfl (by simp)

/-- C7: with an empty error list and an empty data payload, the REST
envelope has code 0, no message, and data equal to the original raw
value; the bytes written are `\x7b"code":0,"data":null\x7d` (a nil raw
value renders as `null`). -/
theorem c7_empty_result :
    buildRESTResponse ⟨Raw.empty, []⟩ = Except.ok ⟨0, "", Raw.empty⟩ ∧
    writeJSON stdWriter ⟨Raw.empty, []⟩ true none =
      Outcome.ok ["\x7b\"code\":0,\"data\":null\x7d"] [] := ⟨rfl, rfl⟩

/-- C8: in REST mode, a fault at the final serialize-and-write, or at any
earlier step, is caught by the containment boundary and converted to the
fixed fallback envelope; but when writing the fallback envelope itself
fails, the failure propagates as a panic with no further containment. -/
theorem c8_containment (r : Response) (w : Writer) (printer : Option Printer) :
    (∀ b, buildAndMarshal r = Except.ok b → w.fails b = true →
      w.fails fallbackContent = false →
      writeJSON w r true printer = Outcome.ok [fallbackContent]
        (dbgPrintf printer ("restful response recover from panic:" ++ writeErrMsg))) ∧
    (∀ e, buildAndMarshal r = Except.error e →
      w.fails fallbackContent = false →
      writeJSON w r true printer = Outcome.ok [fallbackContent]
        (dbgPrintf printer ("restful response recover from panic:" ++ e))) ∧
    (w.fails fallbackContent = true →
      ∀ b, buildAndMarshal r = Except.ok b → w.fails b = true →
        writeJSON w r true printer = Outcome.panicked []
          (dbgPrintf printer ("restful response recover from panic:" ++ writeErrMsg))
          writeErrMsg) ∧
    (w.fails fallbackContent = true →
      ∀ e, buildAndMarshal r = Except.error e →
        writeJSON w r true printer = Outcome.panicked []
          (dbgPrintf printer ("restful response recover from panic:" ++ e))
          writeErrMsg) := by
  refine ⟨?_, ?_, ?_, ?_⟩
  · intro b hb hfb hfc
    simp [writeJSON, restRecover, hb, hfb, hfc]
  · intro e he hfc
    simp [writeJSON, restRecover, he, hfc]
  · intro hfc b hb hfb
    simp [writeJSON, restRecover, hb, hfb, hfc]
  · intro hfc e he
    simp [writeJSON, restRecover, he, hfc]

/-- C8 witness: `c8_containment` at the empty result, once with a sink
failing exactly on the main envelope bytes, once with a sink failing on
every write. -/
theorem c8_witness :
    writeJSON ⟨fun s => s == "\x7b\"code\":0,\"data\":null\x7d"⟩ ⟨Raw.empty, []⟩ true none =
      Outcome.ok [fallbackContent] [] ∧
    writeJSON ⟨fun _ => true⟩ ⟨Raw.empty, []⟩ true none =
      Outcome.panicked [] [] writeErrMsg :=
  ⟨(c8_containment ⟨Raw.empty, []⟩ ⟨fun s => s == "\x7b\"code\":0,\"data\":null\x7d"⟩ none).1
      "\x7b\"code\":0,\"data\":null\x7d" rfl rfl rfl,
   (c8_containment ⟨Raw.empty, []⟩ ⟨fun _ => true⟩ none).2.2.1 rfl
      "\x7b\"code\":0,\"data\":null\x7d" rfl rfl⟩

/-- C9: with no registered printer (the process-wide sink unset), every
invocation of `dbgPrintf` completes and produces no output: diagnostic
output is silently dropped and never required for translation. -/
theorem c9_no_printer_silently_drops (fmt : String) : dbgPrintf none fmt = [] := rfl

/-- C10: whenever an error's `code` extensions entry holds a non-string
value, the working code string is overwritten with the empty string; so
when the last error carrying a `code` extension holds a non-string value,
the working string ends empty and the envelope code resolves to 500,
regardless of any codes carried by earlier errors. -/
theorem c10_nonstring_code_resolves_500 (r : Response) (resp : RESTResponse)
    (hok : buildRESTResponse r = Except.ok resp)
    (hne : r.Errors ≠ [])
    (v : ExtVal)
    (hlast : lastCodeExt r.Errors = some v)
    (hv : v.isStr = false) :
    codeAfter (toString StatusUnprocessableEntity) r.Errors = "" ∧ resp.Code = 500 := by
  have hstr : extValAsString v = "" := by
    cases v <;> simp_all [ExtVal.isStr, extValAsString]
  constructor
  · rw [codeAfter_lastCodeExt, hlast]
    exact hstr
  · obtain ⟨r1, hx, hresp⟩ := build_ok r resp hok
    subst hresp
    rw [applyErrors_eq r.Errors r1 hne]
    show resolveCode (codeAfter (toString StatusUnprocessableEntity) r.Errors) = 500
    rw [codeAfter_lastCodeExt, hlast]
    show resolveCode (extValAsString v) = 500
    rw [hstr]
    rfl

/-- C10 witness: `c10_nonstring_code_resolves_500` at a list whose first
error carries the numeric string "404" and whose last carries the Go int
7: the envelope code is 500, not 404 and not 7. -/
theorem c10_witness :
    codeAfter (toString StatusUnprocessableEntity)
      [⟨"a", [], [("code", ExtVal.str "404")]⟩, ⟨"b", [], [("code", ExtVal.int 7)]⟩] = "" ∧
    (⟨(500 : Int), "a; b", Raw.empty⟩ : RESTResponse).Code = 500 :=
  c10_nonstring_code_resolves_500
    ⟨Raw.empty, [⟨"a", [], [("code", ExtVal.str "404")]⟩, ⟨"b", [], [("code", ExtVal.int 7)]⟩]⟩
    ⟨500, "a; b", Raw.empty⟩ rfl (by simp) (ExtVal.int 7) rfl rfl

end Handlerx
